import Mathlib

/-
Verification of the job-processing pipeline of the yt-dlp service repository.

The development shallowly embeds the Python sources:
  * app/utils/timestamp_utils.py   (format_seconds_to_srt, convert_srt_timestamp_to_seconds)
  * app/services/job_service.py    (_parse_subtitles_to_segments, _try_extract_platform_subtitles
                                    selection logic, process_single_job, process_job_batch)
  * app/routers/transcription.py   (transcription_semaphore concurrency gate)

Python strings are modelled as `List Char` (sequences of code points), Python
ints as `Int`/`Nat`, and Python floats as exact rationals `Rat` (the claims
under study are tolerance-based or independent of rounding noise).  Fallible
operations return `Option`.  Effectful code (database updates, queue
acknowledgements) is modelled by pure functions that additionally return an
explicit trace of the external calls they perform.
-/

set_option maxRecDepth 4000

/-- Python whitespace characters as recognised by str.strip() and the regex
class \s (ASCII range; the inputs of interest are ASCII). -/
def pyIsSpace (c : Char) : Bool :=
  c = ' ' || c = '\t' || c = '\n' || c = '\r' || c = Char.ofNat 11 || c = Char.ofNat 12

/-- Python str.strip(): drop whitespace from both ends. -/
def pyStrip (l : List Char) : List Char :=
  ((l.dropWhile pyIsSpace).reverse.dropWhile pyIsSpace).reverse

/-- Decimal digit character for a value below ten. -/
def digitChar (n : Nat) : Char :=
  match n with
  | 0 => '0' | 1 => '1' | 2 => '2' | 3 => '3' | 4 => '4'
  | 5 => '5' | 6 => '6' | 7 => '7' | 8 => '8' | _ => '9'

/-- Is the character an ASCII decimal digit (regex \d, ASCII range)? -/
def isDigitChar (c : Char) : Bool :=
  48 ≤ c.toNat && c.toNat ≤ 57

/-- Numeric value of a digit character. -/
def digitVal (c : Char) : Nat := c.toNat - 48

/-- Value of a big-endian decimal digit string. -/
def digitsVal (l : List Char) : Nat :=
  l.foldl (fun a c => a * 10 + digitVal c) 0

/-- Decimal digit list of a natural number (Python str(n) for n ≥ 0). -/
def natDigits (n : Nat) : List Char :=
  if _h : n < 10 then [digitChar n]
  else natDigits (n / 10) ++ [digitChar (n % 10)]
termination_by n
decreasing_by exact Nat.div_lt_self (by omega) (by omega)

/-- Python str(i) for an integer. -/
def intRepr (i : Int) : List Char :=
  if i < 0 then '-' :: natDigits i.natAbs else natDigits i.toNat

/-- Zero padding to a given width, as the format spec 0wd does for
non-negative values. -/
def padZeros (w : Nat) (l : List Char) : List Char :=
  List.replicate (w - l.length) '0' ++ l

/-- Python str.split(sep) for a single-character separator. -/
def splitOnChar (sep : Char) : List Char → List (List Char)
  | [] => [[]]
  | c :: rest =>
    if c = sep then [] :: splitOnChar sep rest
    else
      match splitOnChar sep rest with
      | [] => [[c]]
      | g :: gs => (c :: g) :: gs

/-- Python int(s): strip whitespace, optional sign, decimal digits.
Returns none where Python raises ValueError.  (Underscore separators and
other exotic accepted forms are not modelled; they do not arise here.) -/
def pyParseInt (l : List Char) : Option Int :=
  let t := pyStrip l
  if t ≠ [] ∧ t.all isDigitChar then some (digitsVal t)
  else if t.head? = some '+' ∧ t.tail ≠ [] ∧ t.tail.all isDigitChar then
    some (digitsVal t.tail)
  else if t.head? = some '-' ∧ t.tail ≠ [] ∧ t.tail.all isDigitChar then
    some (-(digitsVal t.tail : Int))
  else none

/-- Python float(s) on plain decimal forms (optional sign, digits with at
most one dot).  Exponent and special forms are not modelled; they do not
arise from the timestamp formats under study.  Python float values are
modelled as exact rationals. -/
def pyParseFloat (l : List Char) : Option Rat :=
  let t := pyStrip l
  let core : List Char :=
    if t.head? = some '+' ∨ t.head? = some '-' then t.tail else t
  let sgn : Rat := if t.head? = some '-' then -1 else 1
  match splitOnChar '.' core with
  | [ds] =>
      if ds ≠ [] ∧ ds.all isDigitChar then some (sgn * (digitsVal ds : Rat)) else none
  | [ip, fp] =>
      if (ip ≠ [] ∨ fp ≠ []) ∧ ip.all isDigitChar ∧ fp.all isDigitChar then
        some (sgn * ((digitsVal ip : Rat) + (digitsVal fp : Rat) / 10 ^ fp.length))
      else none
  | _ => none

/-- Python x % m for floats with a positive modulus: x - m * floor (x / m). -/
def pymod (x m : Rat) : Rat := x - m * ⌊x / m⌋

/-- Embedding of format_seconds_to_srt (app/utils/timestamp_utils.py):
convert seconds to the SRT timestamp shape HH:MM:SS,mmm.  Python // and %
on floats floor; int() of the already-floored or non-negative quantities
below is the rational floor. -/
def format_seconds_to_srt (seconds : Rat) : List Char :=
  let hours : Int := ⌊seconds / 3600⌋
  let minutes : Int := ⌊pymod seconds 3600 / 60⌋
  let secs : Int := ⌊pymod seconds 60⌋
  let millis : Int := ⌊pymod seconds 1 * 1000⌋
  padZeros 2 (intRepr hours) ++ ':' :: padZeros 2 (intRepr minutes) ++
    ':' :: padZeros 2 (intRepr secs) ++ ',' :: padZeros 3 (intRepr millis)

/-- Embedding of convert_srt_timestamp_to_seconds (app/utils/timestamp_utils.py):
replace commas by dots, split on colons; a three-part split is parsed as
HH:MM:SS.mmm, anything else falls back to Python float parsing. -/
def convert_srt_timestamp_to_seconds (timestamp : List Char) : Option Rat :=
  let t := timestamp.map (fun c => if c = ',' then '.' else c)
  match splitOnChar ':' t with
  | [h, m, s] =>
      match pyParseInt h, pyParseInt m, pyParseFloat s with
      | some hn, some mn, some sq => some ((hn : Rat) * 3600 + (mn : Rat) * 60 + sq)
      | _, _, _ => none
  | _ => pyParseFloat t

/-- Python round(x, 3) modelled at exact rational precision (ties rounded up;
the Python ties-to-even behaviour differs only on exact half-millisecond
ties, which none of the verified claims depend on). -/
def pyRound3 (q : Rat) : Rat := (⌊q * 1000 + 1/2⌋ : Rat) / 1000

/-- Does the first list occur as a prefix of the second? -/
def startsWithChars : List Char → List Char → Bool
  | [], _ => true
  | _ :: _, [] => false
  | a :: as, b :: bs => a = b && startsWithChars as bs

/-- Python substring containment (the in operator on strings). -/
def containsSub (needle : List Char) : List Char → Bool
  | [] => startsWithChars needle []
  | c :: rest => startsWithChars needle (c :: rest) || containsSub needle rest

/-- The characters of the cue separator arrow. -/
def arrowChars : List Char := "-->".toList

/-- Embedding of re.sub applied with the markup pattern of job_service.py:
remove every occurrence of < followed by one or more non-> characters and
a closing >; unmatched occurrences of < are kept, and scanning resumes
after each removed tag, exactly as leftmost regex substitution does. -/
def stripTagsGo : Nat → List Char → List Char
  | 0, l => l
  | _ + 1, [] => []
  | fuel + 1, c :: rest =>
    if c = '<' then
      let inner := rest.takeWhile (fun x => x ≠ '>')
      if inner ≠ [] ∧ rest.drop inner.length ≠ [] then
        stripTagsGo fuel (rest.drop (inner.length + 1))
      else c :: stripTagsGo fuel rest
    else c :: stripTagsGo fuel rest

/-- Entry point of the markup scanner; the fuel, one unit per consumed
character, always suffices since every step shortens the input. -/
def stripTags (l : List Char) : List Char := stripTagsGo l.length l

/-- Python sep.join semantics for a single-space separator. -/
def joinSpace : List (List Char) → List Char
  | [] => []
  | [x] => x
  | x :: y :: rest => x ++ ' ' :: joinSpace (y :: rest)

/-- Consume a leading run of one or more decimal digits, returning its value,
its length and the remainder. -/
def eatDigits (l : List Char) : Option (Nat × Nat × List Char) :=
  let ds := l.takeWhile isDigitChar
  if ds = [] then none else some (digitsVal ds, ds.length, l.dropWhile isDigitChar)

/-- Consume one expected character. -/
def eatChar (c : Char) (l : List Char) : Option (List Char) :=
  if l.head? = some c then some l.tail else none

/-- Consume a leading run of one or more whitespace characters (regex \s+). -/
def eatWhitespace1 (l : List Char) : Option (List Char) :=
  if l.takeWhile pyIsSpace = [] then none else some (l.dropWhile pyIsSpace)

/-- Match one timestamp group of the cue regexes of job_service.py
(digits : digits : digits sep digits, where sep is . for vtt and , for srt),
returning its value in seconds (as convert_srt_timestamp_to_seconds yields
for the matched group) and the unconsumed remainder. -/
def matchStamp (sep : Char) (l : List Char) : Option (Rat × List Char) := do
  let (h, _, r1) ← eatDigits l
  let r2 ← eatChar ':' r1
  let (m, _, r3) ← eatDigits r2
  let r4 ← eatChar ':' r3
  let (s, _, r5) ← eatDigits r4
  let r6 ← eatChar sep r5
  let (f, fl, r7) ← eatDigits r6
  pure (((h : Rat) * 3600 + (m : Rat) * 60 + (s : Rat) + (f : Rat) / 10 ^ fl, r7))

/-- Match the full cue-line regex anchored at the start of the line (re.match):
group1 whitespace arrow whitespace group2, trailing content permitted. -/
def matchCueTimes (sep : Char) (l : List Char) : Option (Rat × Rat) := do
  let (t1, r1) ← matchStamp sep l
  let r2 ← eatWhitespace1 r1
  let r3 ← (if startsWithChars arrowChars r2 then some (r2.drop 3) else none)
  let r4 ← eatWhitespace1 r3
  let (t2, _) ← matchStamp sep r4
  pure (t1, t2)

/-- Python str.split for the two-character block separator of the srt branch. -/
def splitOnPair (a b : Char) : List Char → List (List Char)
  | [] => [[]]
  | [x] => [[x]]
  | x :: y :: rest =>
    if x = a ∧ y = b then [] :: splitOnPair a b rest
    else
      match splitOnPair a b (y :: rest) with
      | [] => [[x]]
      | g :: gs => (x :: g) :: gs

/-- A word with timing, as built by the json3 branch. -/
structure SubWord where
  word : List Char
  start : Rat
  «end» : Rat

/-- A parsed subtitle segment, the dictionary shape produced by
_parse_subtitles_to_segments. -/
structure Segment where
  segment_id : Nat
  start : Rat
  «end» : Rat
  text : List Char
  words : Option (List SubWord) := none

/-- One entry of the segs array of a json3 event (json.loads output). -/
structure J3Seg where
  utf8 : List Char := []
  tOffsetMs : Int := 0

/-- One event of a json3 document (json.loads output); a missing segs key is
none and a missing or falsy aAppend is false. -/
structure J3Event where
  segs : Option (List J3Seg) := none
  aAppend : Bool := false
  tStartMs : Int := 0
  dDurationMs : Int := 0

/-- The word list built by the json3 branch before end times are assigned:
each seg whose stripped text is neither empty nor a newline contributes its
stripped text and rounded start time. -/
def j3WordPairs (startMs : Int) (segs : List J3Seg) : List (List Char × Rat) :=
  segs.filterMap (fun sg =>
    let w := pyStrip sg.utf8
    if w = [] ∨ w = ['\n'] then none
    else some (w, pyRound3 (((startMs + sg.tOffsetMs : Int) : Rat) / 1000)))

/-- Second pass of the json3 branch: each word ends where the next one starts,
and the last word ends at the segment end. -/
def assignWordEnds (segEnd : Rat) : List (List Char × Rat) → List SubWord
  | [] => []
  | (w, st) :: rest =>
    let e : Rat :=
      match rest with
      | [] => segEnd
      | (_, st2) :: _ => st2
    { word := w, start := st, «end» := e } :: assignWordEnds segEnd rest

/-- Embedding of the json3 branch of _parse_subtitles_to_segments, operating
on the decoded event list (the json.loads output).  Note the counter is
advanced before the emptiness of the collected text is known. -/
def parseJson3Events (segId : Nat) : List J3Event → List Segment
  | [] => []
  | ev :: rest =>
    match ev.segs with
    | none => parseJson3Events segId rest
    | some segs =>
      if ev.aAppend then parseJson3Events segId rest
      else if (match segs with
               | [single] =>
                 (pyStrip single.utf8).isEmpty || pyStrip single.utf8 == ['\n']
               | _ => false) then parseJson3Events segId rest
      else
        let pairs := j3WordPairs ev.tStartMs segs
        let segEnd := pyRound3 (((ev.tStartMs + ev.dDurationMs : Int) : Rat) / 1000)
        let words := assignWordEnds segEnd pairs
        if pairs ≠ [] then
          { segment_id := segId + 1,
            start := pyRound3 ((ev.tStartMs : Rat) / 1000),
            «end» := segEnd,
            text := joinSpace (pairs.map Prod.fst),
            words := if words.isEmpty then none else some words } ::
            parseJson3Events (segId + 1) rest
        else parseJson3Events (segId + 1) rest

/-- Embedding of the vtt branch of _parse_subtitles_to_segments: scan lines,
on a cue line collect the following stripped text lines up to a blank line
or the next cue line, clean markup, and emit a segment when the cleaned
text is non-empty; scanning resumes at the stopping line. -/
def parseVttLines (segId : Nat) : List (List Char) → List Segment
  | [] => []
  | line :: rest =>
    if containsSub arrowChars line then
      match matchCueTimes '.' line with
      | some (t1, t2) =>
        let stripped := rest.map pyStrip
        let textLines := stripped.takeWhile
          (fun s => !s.isEmpty && !(containsSub arrowChars s))
        let remaining := rest.drop textLines.length
        let cleaned := pyStrip (stripTags (joinSpace textLines))
        if cleaned ≠ [] then
          { segment_id := segId + 1, start := t1, «end» := t2, text := cleaned } ::
            parseVttLines (segId + 1) remaining
        else parseVttLines segId remaining
      | none => parseVttLines segId rest
    else parseVttLines segId rest
termination_by l => l.length
decreasing_by
  · simp only [List.length_cons, List.length_drop]; omega
  · simp only [List.length_cons, List.length_drop]; omega
  · simp only [List.length_cons]; omega
  · simp only [List.length_cons]; omega

/-- Embedding of the srt branch of _parse_subtitles_to_segments: split into
blank-line separated blocks; a block with at least three lines whose second
line matches the cue regex advances the counter, and emits a segment when
its tag-stripped text is non-empty. -/
def parseSrtBlocks (segId : Nat) : List (List Char) → List Segment
  | [] => []
  | block :: rest =>
    let lines := splitOnChar '\n' (pyStrip block)
    match lines with
    | _ :: tsLine :: t1 :: ts =>
      (match matchCueTimes ',' tsLine with
       | some (st, en) =>
         let text := stripTags (pyStrip (joinSpace (t1 :: ts)))
         if text ≠ [] then
           { segment_id := segId + 1, start := st, «end» := en, text := text } ::
             parseSrtBlocks (segId + 1) rest
         else parseSrtBlocks (segId + 1) rest
       | none => parseSrtBlocks segId rest)
    | _ => parseSrtBlocks segId rest

/-- Embedding of _parse_subtitles_to_segments for the string-borne formats;
the json3 branch runs json.loads first and is embedded by parseJson3Events
over the decoded events.  Unknown formats yield the empty list. -/
def parse_subtitles_to_segments (subtitle_content : List Char)
    (subtitle_format : List Char) : List Segment :=
  if subtitle_format = "vtt".toList then
    parseVttLines 0 (splitOnChar '\n' subtitle_content)
  else if subtitle_format = "srt".toList then
    parseSrtBlocks 0 (splitOnPair '\n' '\n' (pyStrip subtitle_content))
  else []

/-- A caption track entry from the yt-dlp metadata; only its format and url
keys are consulted by the selection logic. -/
structure SubTrack where
  ext : Option (List Char) := none
  url : Option (List Char) := none
deriving DecidableEq

/-- A language-keyed caption map (the subtitles and automatic_captions
dictionaries of the yt-dlp metadata), as an association list. -/
def getTracks (m : List (List Char × List SubTrack)) (k : List Char) : List SubTrack :=
  match m.lookup k with
  | some v => v
  | none => []

/-- The English fallback variants consulted by _try_extract_platform_subtitles. -/
def englishVariants : List (List Char) := ["en".toList, "en-US".toList, "en-GB".toList]

/-- Embedding of the language-selection logic of _try_extract_platform_subtitles
(job_service.py): manual tracks in the target language, else manual tracks in
the first non-empty English variant, else (when automatic captions are
enabled) the same two lookups over the automatic captions; the Boolean of the
result records whether an auto-generated map was chosen.  A dictionary entry
holding an empty list is falsy in Python and therefore skipped. -/
def selectSubtitleTracks (manual auto : List (List Char × List SubTrack))
    (target : List Char) (includeAuto : Bool) :
    Option (List SubTrack × List Char × Bool) :=
  if getTracks manual target ≠ [] then some (getTracks manual target, target, false)
  else
    match englishVariants.findSome? (fun fb =>
        if getTracks manual fb ≠ [] then some (getTracks manual fb, fb) else none) with
    | some (tr, fb) => some (tr, fb, false)
    | none =>
      if includeAuto then
        if getTracks auto target ≠ [] then some (getTracks auto target, target, true)
        else
          match englishVariants.findSome? (fun fb =>
              if getTracks auto fb ≠ [] then some (getTracks auto fb, fb) else none) with
          | some (tr, fb) => some (tr, fb, true)
          | none => none
      else none

/-- Embedding of the format-selection loops of _try_extract_platform_subtitles:
first track whose ext is json3, else first track whose ext is vtt or srt,
else the first track of the list. -/
def chooseTrackFormat (tracks : List SubTrack) : Option SubTrack :=
  match tracks.find? (fun t => t.ext == some "json3".toList) with
  | some t => some t
  | none =>
    match tracks.find? (fun t =>
        t.ext == some "vtt".toList || t.ext == some "srt".toList) with
    | some t => some t
    | none => tracks.head?

/-- Mirror of the specification wording for the language preference order: the
candidate list manual-target, manual-en, manual-en-US, manual-en-GB, then,
when automatic captions are enabled, the same languages over the automatic
captions. -/
def specSubtitleCandidates (target : List Char) (includeAuto : Bool) :
    List (Bool × List Char) :=
  ((false, target) :: englishVariants.map (fun l => (false, l))) ++
    (if includeAuto then (true, target) :: englishVariants.map (fun l => (true, l))
     else [])

/-- Mirror of the specification wording for the whole selection: take the
first candidate whose track list is non-empty. -/
def specSelectSubtitleTracks (manual auto : List (List Char × List SubTrack))
    (target : List Char) (includeAuto : Bool) :
    Option (List SubTrack × List Char × Bool) :=
  (specSubtitleCandidates target includeAuto).findSome? (fun c =>
    let tr := getTracks (if c.1 then auto else manual) c.2
    if tr ≠ [] then some (tr, c.2, c.1) else none)

/-- Python str.split() with no separator: split on whitespace runs, dropping
empty pieces (used for the word counts of process_single_job). -/
def pySplitWsAux : List Char → List Char → List (List Char)
  | [], acc => if acc = [] then [] else [acc.reverse]
  | c :: rest, acc =>
    if pyIsSpace c then
      if acc = [] then pySplitWsAux rest [] else acc.reverse :: pySplitWsAux rest []
    else pySplitWsAux rest (c :: acc)

/-- Python str.split() with no separator. -/
def pySplitWs (l : List Char) : List (List Char) := pySplitWsAux l []

/-- The word count computed by process_single_job: total number of
whitespace-separated words over all segment texts. -/
def pyWordCount (segs : List Segment) : Nat :=
  (segs.map (fun s => (pySplitWs s.text).length)).sum

/-- A queue job as read by process_single_job: msg_id, read_ct, the optional
top-level document_id, the optional document_id nested in the message
payload (none also covers an absent or non-dict message), and the optional
skip_subtitles flag. -/
structure Job where
  msg_id : Int := 0
  read_ct : Int := 1
  document_id : Option (List Char) := none
  message_document_id : Option (List Char) := none
  skip_subtitles : Bool := false

/-- The identifier normalisation of process_single_job: take the top-level
document_id when truthy, else the nested one; an empty string is falsy in
Python and treated like an absent value. -/
def resolvedDocumentId (job : Job) : Option (List Char) :=
  let d0 : Option (List Char) :=
    match job.document_id with
    | some d => if d = [] then job.message_document_id else some d
    | none => job.message_document_id
  match d0 with
  | some d => if d = [] then none else some d
  | none => none

/-- The document row consulted by process_single_job; metadata is flattened to
the two url keys the code reads (an absent or falsy metadata dictionary is
both keys none). -/
structure DocRecord where
  canonical_url : Option (List Char) := none
  metadata_media_url : Option (List Char) := none
  metadata_url : Option (List Char) := none
  media_format : Option (List Char) := none
  lang : Option (List Char) := none

/-- The media-url resolution of process_single_job: canonical_url when truthy,
else metadata.media_url, else metadata.url, each skipped when empty. -/
def docMediaUrl (doc : DocRecord) : Option (List Char) :=
  let truthy : Option (List Char) → Option (List Char) := fun o =>
    match o with
    | some [] => none
    | x => x
  match truthy doc.canonical_url with
  | some u => some u
  | none =>
    match truthy doc.metadata_media_url with
    | some u => some u
    | none => truthy doc.metadata_url

/-- A segment as returned by the transcription engine; segment_id may be
absent and is then assigned positionally. -/
structure AiSegment where
  segment_id : Option Nat := none
  start : Rat := 0
  «end» : Rat := 0
  text : List Char := []

/-- The id-fixup loop of process_single_job step 6: enumerate from 1 and
assign the index to segments lacking a segment_id. -/
def assignSegmentIds (l : List AiSegment) : List Segment :=
  (l.enumFrom 1).map (fun p =>
    { segment_id := p.2.segment_id.getD p.1,
      start := p.2.start, «end» := p.2.«end», text := p.2.text })

/-- A successful _try_extract_platform_subtitles outcome (the function returns
None both when no track exists and when extraction or parsing fails, so the
failure modes collapse into the none of the oracle field). -/
structure SubtitleOutcome where
  segments : List Segment
  language : List Char
  duration : Option Rat := none
  video_id : Option (List Char) := none
  platform : Option (List Char) := none
  source_format : Option (List Char) := none
  is_auto_generated : Bool := false

/-- A successful _extract_audio_from_url outcome. -/
structure AudioOutcome where
  audio_file : List Char
  video_id : Option (List Char) := none
  duration : Option Rat := none
  platform : Option (List Char) := none

/-- A successful _transcribe_audio_internal outcome. -/
structure TransOutcome where
  segments : List AiSegment := []
  language : Option (List Char) := none
  transcription_time : Option Rat := none

/-- Oracle for the external collaborators of one process_single_job run: the
document's current processing_status (the claim update matches a row exactly
when it is pending), the fetch/extract/transcribe/persist outcomes (error
carries the exception text), and whether the best-effort status update in
the failure handler succeeds.  Transport failure of a call is the error
branch of its field. -/
structure Env where
  docStatus : List Char := "pending".toList
  fetchDoc : Except (List Char) (Option DocRecord) := .ok none
  subtitles : Option SubtitleOutcome := none
  audio : Except (List Char) AudioOutcome := .error []
  transcribe : Except (List Char) TransOutcome := .error []
  upsert : Except (List Char) Unit := .ok ()
  complete : Except (List Char) Unit := .ok ()
  statusWriteOk : Bool := true

/-- One external call performed by the pipeline, in execution order.  Database
writes record the success of the call; matched is whether the conditional
claim update touched a row. -/
inductive Effect
  | claimUpdate (docId : List Char) (matched : Bool)
  | fetchDocument (docId : List Char)
  | trySubtitles (url : List Char)
  | extractAudio (url : List Char)
  | transcribeAudio (file : List Char)
  | upsertTranscription (docId : List Char) (source : List Char) (ok : Bool)
  | updateStatus (docId : List Char) (status : List Char)
      (processingError : Option (List Char)) (ok : Bool)
  | ackDelete (msgId : Int)
  | ackArchive (msgId : Int)
deriving DecidableEq

/-- Exception message for a document that vanished between claim and fetch. -/
def docNotFoundMsg (docId : List Char) : List Char :=
  "Document ".toList ++ docId ++ " not found after claiming".toList

/-- Exception message for a document without a resolvable media url. -/
def noMediaUrlMsg : List Char :=
  "No media URL found in document (canonical_url or metadata.media_url/url)".toList

/-- The single-quote character (kept out of string literals). -/
def sqChar : Char := Char.ofNat 39

/-- Python string interpolation of an optional string (None prints as None). -/
def pyShow (o : Option (List Char)) : List Char :=
  match o with
  | some s => s
  | none => "None".toList

/-- Exception message for an invalid media_format value. -/
def invalidMediaFormatMsg (mf : Option (List Char)) : List Char :=
  "Invalid media_format ".toList ++ sqChar :: pyShow mf ++
    sqChar :: " (expected ".toList ++ sqChar :: "video".toList ++
    sqChar :: " or ".toList ++ sqChar :: "audio".toList ++ sqChar :: ")".toList

/-- Result of the guarded body of process_single_job (its try block): the
stale-message early return, a completed run carrying the transcription
source and counts, or an exception together with the step marker that was
current when it was raised. -/
inductive PipelineOut
  | earlyDeleted
  | completedRun (source : List Char) (word_count segment_count : Nat)
  | exn (step : List Char) (msg : List Char)

/-- Embedding of the try block of process_single_job (steps 1 to 9): claim the
document, fetch and validate it, try platform subtitles for video unless
skipped, else extract audio and transcribe, upsert the transcription, mark
the document completed, and acknowledge the message.  Every external call is
recorded in order; a raised exception carries the current_step marker. -/
def processBody (job : Job) (docId : List Char) (model_size provider : List Char)
    (env : Env) : List Effect × PipelineOut :=
  let claimed := env.docStatus = "pending".toList
  if ¬ claimed then
    ([.claimUpdate docId false, .ackDelete job.msg_id], .earlyDeleted)
  else
    let effs0 := [Effect.claimUpdate docId true, Effect.fetchDocument docId]
    match env.fetchDoc with
    | .error e => (effs0, .exn "fetching document details".toList e)
    | .ok none => (effs0, .exn "fetching document details".toList (docNotFoundMsg docId))
    | .ok (some doc) =>
      match docMediaUrl doc with
      | none => (effs0, .exn "validating document data".toList noMediaUrlMsg)
      | some media_url =>
        if ¬ (doc.media_format = some "video".toList ∨
              doc.media_format = some "audio".toList) then
          (effs0, .exn "validating document data".toList
            (invalidMediaFormatMsg doc.media_format))
        else
          let trySubs := doc.media_format = some "video".toList ∧ ¬ job.skip_subtitles
          let effs1 := effs0 ++ (if trySubs then [Effect.trySubtitles media_url] else [])
          let subtitle_result := if trySubs then env.subtitles else none
          match subtitle_result with
          | some sr =>
            let segments := sr.segments
            let word_count := pyWordCount segments
            finishRun job docId "subtitle".toList segments word_count effs1 env
          | none =>
            let effs2 := effs1 ++ [Effect.extractAudio media_url]
            match env.audio with
            | .error e =>
              (effs2, .exn ("extracting audio from ".toList ++ media_url.take 60)
                ("Audio extraction failed: ".toList ++ e))
            | .ok audio_result =>
              let effs3 := effs2 ++ [Effect.transcribeAudio audio_result.audio_file]
              match env.transcribe with
              | .error e =>
                (effs3, .exn ("transcribing audio with ".toList ++ provider ++
                    "/".toList ++ model_size)
                  ("Transcription failed: ".toList ++ e))
              | .ok transcription =>
                let segments := assignSegmentIds transcription.segments
                let word_count := pyWordCount segments
                finishRun job docId "ai".toList segments word_count effs3 env
where
  finishRun (job : Job) (docId : List Char) (source : List Char)
      (segments : List Segment) (word_count : Nat) (effs : List Effect)
      (env : Env) : List Effect × PipelineOut :=
    match env.upsert with
    | .error e =>
      (effs ++ [.upsertTranscription docId source false],
        .exn "saving transcription to database".toList
          ("Database save failed: ".toList ++ e))
    | .ok _ =>
      let effs4 := effs ++ [Effect.upsertTranscription docId source true]
      match env.complete with
      | .error e =>
        (effs4 ++ [.updateStatus docId "completed".toList none false],
          .exn "marking document as completed".toList
            ("Failed to mark document completed: ".toList ++ e))
      | .ok _ =>
        (effs4 ++ [.updateStatus docId "completed".toList none true,
           .ackDelete job.msg_id],
          .completedRun source word_count segments.length)

/-- The step-prefixed, truncation-bounded error message of the except handler
of process_single_job. -/
def buildErrorMsg (step base : List Char) : List Char :=
  let m := "[Step: ".toList ++ step ++ "] ".toList ++ base
  if 500 < m.length then m.take 480 ++ "... (truncated)".toList else m

/-- The per-message result dictionary of process_single_job. -/
structure JobResult where
  msg_id : Int
  status : List Char
  document_id : Option (List Char) := none
  reason : Option (List Char) := none
  error : Option (List Char) := none
  read_ct : Option Int := none
  source : Option (List Char) := none
  word_count : Option Nat := none
  segment_count : Option Nat := none
deriving DecidableEq

/-- A process_single_job run: its returned result and the trace of external
calls it performed. -/
structure SingleJobOutput where
  result : JobResult
  effects : List Effect
deriving DecidableEq

/-- Embedding of process_single_job (job_service.py): resolve the document
reference (archiving immediately when absent), run the guarded body, and on
an exception decide between the retry and the archive disposition by
comparing read_ct with max_retries; the failure-handler status update is
best-effort and its success never alters the disposition. -/
def process_single_job (job : Job) (max_retries : Int) (model_size provider : List Char)
    (env : Env) : SingleJobOutput :=
  match resolvedDocumentId job with
  | none =>
    { result := { msg_id := job.msg_id, status := "archived".toList,
                  reason := some "missing document_id".toList },
      effects := [.ackArchive job.msg_id] }
  | some docId =>
    match processBody job docId model_size provider env with
    | (effs, .earlyDeleted) =>
      { result := { msg_id := job.msg_id, status := "deleted".toList,
                    reason := some "not pending".toList,
                    document_id := some docId },
        effects := effs }
    | (effs, .completedRun source word_count segment_count) =>
      { result := { msg_id := job.msg_id, status := "completed".toList,
                    document_id := some docId, source := some source,
                    word_count := some word_count,
                    segment_count := some segment_count },
        effects := effs }
    | (effs, .exn step base) =>
      let error_msg := buildErrorMsg step base
      if job.read_ct ≥ max_retries then
        let final_error_msg := "Failed after ".toList ++ intRepr job.read_ct ++
          " attempts. Last error: ".toList ++ error_msg
        { result := { msg_id := job.msg_id, status := "archived".toList,
                      error := some error_msg, read_ct := some job.read_ct,
                      document_id := some docId },
          effects := effs ++
            [.updateStatus docId "error".toList (some final_error_msg)
               env.statusWriteOk,
             .ackArchive job.msg_id] }
      else
        let retry_error_msg := "Retry ".toList ++ intRepr job.read_ct ++
          "/".toList ++ intRepr max_retries ++ ": ".toList ++ error_msg
        { result := { msg_id := job.msg_id, status := "retry".toList,
                      error := some error_msg, read_ct := some job.read_ct,
                      document_id := some docId },
          effects := effs ++
            [.updateStatus docId "pending".toList (some retry_error_msg)
               env.statusWriteOk] }

/-- The summary counters of process_job_batch. -/
structure BatchSummary where
  total : Nat
  completed : Nat
  retry : Nat
  archived : Nat
  deleted : Nat
deriving DecidableEq

/-- The batch response of process_job_batch. -/
structure BatchOutput where
  ok : Bool
  summary : BatchSummary
  results : List JobResult
deriving DecidableEq

/-- Embedding of process_job_batch (job_service.py): process the jobs
sequentially in list order, each paired with the oracle for its external
calls, collect one result per job, and count the results by status. -/
def process_job_batch (jobs : List (Job × Env)) (max_retries : Int)
    (model_size provider : List Char) : BatchOutput :=
  let results := jobs.map (fun je =>
    (process_single_job je.1 max_retries model_size provider je.2).result)
  { ok := true,
    summary :=
      { total := jobs.length,
        completed := (results.filter (fun r => r.status = "completed".toList)).length,
        retry := (results.filter (fun r => r.status = "retry".toList)).length,
        archived := (results.filter (fun r => r.status = "archived".toList)).length,
        deleted := (results.filter (fun r => r.status = "deleted".toList)).length },
    results := results }

/-- Phase of one caller of the transcription gate: not yet admitted, holding a
permit, or done (the permit given back, whether the engine returned or
raised). -/
inductive TaskPhase
  | waiting
  | running
  | finished
deriving DecidableEq

/-- State of the transcription_semaphore gate together with its callers. -/
structure GateState where
  permits : Nat
  tasks : List TaskPhase
deriving DecidableEq

/-- Number of callers currently inside the gate. -/
def runningCount (s : GateState) : Nat := s.tasks.count TaskPhase.running

/-- The transitions of the async-with discipline around
transcription_semaphore: a waiting caller may enter only when a permit is
free (otherwise it has no enabled transition: it blocks, it cannot fail),
and a caller holding a permit gives it back when it finishes, whether the
engine returned normally or raised. -/
inductive GateStep : GateState → GateState → Prop
  | acquire (s : GateState) (i : Nat) (hi : s.tasks[i]? = some .waiting)
      (hp : 0 < s.permits) :
      GateStep s ⟨s.permits - 1, s.tasks.set i .running⟩
  | finish (s : GateState) (i : Nat) (raised : Bool)
      (hi : s.tasks[i]? = some .running) :
      GateStep s ⟨s.permits + 1, s.tasks.set i .finished⟩

/-- The initial state: all permits free (the gate size is the configured
MAX_CONCURRENT_TRANSCRIPTIONS), every caller waiting. -/
def initGate (maxConc n : Nat) : GateState :=
  ⟨maxConc, List.replicate n .waiting⟩

/-- States reachable by interleaving gate transitions from the initial state. -/
inductive GateReachable (maxConc n : Nat) : GateState → Prop
  | init : GateReachable maxConc n (initGate maxConc n)
  | step {s s' : GateState} : GateReachable maxConc n s → GateStep s s' →
      GateReachable maxConc n s'

/-- Claim C4: a queue message whose work-item reference is absent both at top
level and in the nested payload is immediately archived without any claim,
read or write, with result status archived and the missing-identifier
reason (the code renders it as the string missing document_id). -/
theorem claim4_missing_identifier_archived (job : Job) (max_retries : Int)
    (model_size provider : List Char) (env : Env)
    (h : resolvedDocumentId job = none) :
    process_single_job job max_retries model_size provider env =
      { result := { msg_id := job.msg_id, status := "archived".toList,
                    reason := some "missing document_id".toList },
        effects := [.ackArchive job.msg_id] } := by
  simp only [process_single_job, h]

/-- Claim C1: a work item that is not pending fails the conditional claim
update (zero rows matched, no mutation), the run short-circuits with no
processing effect of any kind, the message is deleted, and the result has
status deleted with no error field. -/
theorem claim1_not_pending_deleted (job : Job) (max_retries : Int)
    (model_size provider : List Char) (env : Env) (docId : List Char)
    (hdoc : resolvedDocumentId job = some docId)
    (hstat : env.docStatus ≠ "pending".toList) :
    process_single_job job max_retries model_size provider env =
      { result := { msg_id := job.msg_id, status := "deleted".toList,
                    reason := some "not pending".toList,
                    document_id := some docId },
        effects := [.claimUpdate docId false, .ackDelete job.msg_id] } := by
  simp only [process_single_job, hdoc, processBody, hstat, not_false_eq_true, if_pos]

/-- Helper: the effect trace accumulated by the guarded body up to an
exception contains no queue acknowledgement: delete happens only in the
stale-message early return and in step 9 of a completed run, archive never
happens inside the body. -/
theorem processBody_exn_no_acks (job : Job) (docId : List Char)
    (model_size provider : List Char) (env : Env) (effs : List Effect)
    (step base : List Char)
    (hexn : processBody job docId model_size provider env = (effs, .exn step base)) :
    ∀ m, Effect.ackDelete m ∉ effs ∧ Effect.ackArchive m ∉ effs := by
  unfold processBody processBody.finishRun at hexn
  dsimp only at hexn
  repeat' split at hexn
  all_goals solve
    | (exfalso; simp at hexn)
    | (rw [Prod.mk.injEq] at hexn
       obtain ⟨he, -⟩ := hexn
       subst he
       intro m
       exact ⟨by simp, by simp⟩)

/-- Helper: the retry disposition of the except handler, in full. -/
theorem single_job_exn_retry (job : Job) (max_retries : Int)
    (model_size provider : List Char) (env : Env) (docId : List Char)
    (effs : List Effect) (step base : List Char)
    (hdoc : resolvedDocumentId job = some docId)
    (hexn : processBody job docId model_size provider env = (effs, .exn step base))
    (hlt : job.read_ct < max_retries) :
    process_single_job job max_retries model_size provider env =
      { result := { msg_id := job.msg_id, status := "retry".toList,
                    error := some (buildErrorMsg step base),
                    read_ct := some job.read_ct, document_id := some docId },
        effects := effs ++
          [.updateStatus docId "pending".toList
            (some ("Retry ".toList ++ intRepr job.read_ct ++ "/".toList ++
              intRepr max_retries ++ ": ".toList ++ buildErrorMsg step base))
            env.statusWriteOk] } := by
  simp only [process_single_job, hdoc, hexn]
  rw [if_neg (by omega)]

/-- Helper: the archive disposition of the except handler, in full. -/
theorem single_job_exn_archive (job : Job) (max_retries : Int)
    (model_size provider : List Char) (env : Env) (docId : List Char)
    (effs : List Effect) (step base : List Char)
    (hdoc : resolvedDocumentId job = some docId)
    (hexn : processBody job docId model_size provider env = (effs, .exn step base))
    (hge : max_retries ≤ job.read_ct) :
    process_single_job job max_retries model_size provider env =
      { result := { msg_id := job.msg_id, status := "archived".toList,
                    error := some (buildErrorMsg step base),
                    read_ct := some job.read_ct, document_id := some docId },
        effects := effs ++
          [.updateStatus docId "error".toList
            (some ("Failed after ".toList ++ intRepr job.read_ct ++
              " attempts. Last error: ".toList ++ buildErrorMsg step base))
            env.statusWriteOk,
           .ackArchive job.msg_id] } := by
  simp only [process_single_job, hdoc, hexn]
  rw [if_pos (by omega)]

/-- Claim C2: when the guarded body raises, the disposition depends only on
comparing read_ct with max_retries: below the bound the work item is returned to
pending with retry detail and the message is not acknowledged (result
retry); at or above it the work item is marked error and the message is
archived exactly once (result archived).  The recorded status write carries
the success flag of the oracle, and flipping that flag never changes the
returned result. -/
theorem claim2_failure_disposition (job : Job) (max_retries : Int)
    (model_size provider : List Char) (env : Env) (docId : List Char)
    (effs : List Effect) (step base : List Char)
    (hdoc : resolvedDocumentId job = some docId)
    (hexn : processBody job docId model_size provider env = (effs, .exn step base)) :
    (job.read_ct < max_retries →
      process_single_job job max_retries model_size provider env =
        { result := { msg_id := job.msg_id, status := "retry".toList,
                      error := some (buildErrorMsg step base),
                      read_ct := some job.read_ct, document_id := some docId },
          effects := effs ++
            [.updateStatus docId "pending".toList
              (some ("Retry ".toList ++ intRepr job.read_ct ++ "/".toList ++
                intRepr max_retries ++ ": ".toList ++ buildErrorMsg step base))
              env.statusWriteOk] } ∧
      (∀ m, Effect.ackDelete m ∉
          (process_single_job job max_retries model_size provider env).effects ∧
        Effect.ackArchive m ∉
          (process_single_job job max_retries model_size provider env).effects)) ∧
    (max_retries ≤ job.read_ct →
      process_single_job job max_retries model_size provider env =
        { result := { msg_id := job.msg_id, status := "archived".toList,
                      error := some (buildErrorMsg step base),
                      read_ct := some job.read_ct, document_id := some docId },
          effects := effs ++
            [.updateStatus docId "error".toList
              (some ("Failed after ".toList ++ intRepr job.read_ct ++
                " attempts. Last error: ".toList ++ buildErrorMsg step base))
              env.statusWriteOk,
             .ackArchive job.msg_id] } ∧
      (process_single_job job max_retries model_size provider env).effects.count
          (.ackArchive job.msg_id) = 1) ∧
    (∀ b : Bool,
      (process_single_job job max_retries model_size provider
          { env with statusWriteOk := b }).result =
        (process_single_job job max_retries model_size provider env).result) := by
  have hnoack := processBody_exn_no_acks job docId model_size provider env effs
    step base hexn
  refine ⟨fun hlt => ?_, fun hge => ?_, fun b => ?_⟩
  · have h := single_job_exn_retry job max_retries model_size provider env docId
      effs step base hdoc hexn hlt
    refine ⟨h, fun m => ?_⟩
    rw [h]
    constructor <;>
      simp [List.mem_append, (hnoack m).1, (hnoack m).2]
  · have h := single_job_exn_archive job max_retries model_size provider env docId
      effs step base hdoc hexn hge
    refine ⟨h, ?_⟩
    rw [h]
    have h0 : effs.count (Effect.ackArchive job.msg_id) = 0 :=
      List.count_eq_zero.mpr (hnoack job.msg_id).2
    simp [List.count_append, h0]
  · have hb : processBody job docId model_size provider { env with statusWriteOk := b } =
        processBody job docId model_size provider env := by
      cases env; rfl
    simp only [process_single_job, hdoc, hb, hexn]
    split <;> rfl

/-- Witness for claim4_missing_identifier_archived at a concrete job. -/
theorem claim4_witness :
    process_single_job { msg_id := 3 } 5 "medium".toList "local".toList {} =
      { result := { msg_id := 3, status := "archived".toList,
                    reason := some "missing document_id".toList },
        effects := [.ackArchive 3] } :=
  claim4_missing_identifier_archived { msg_id := 3 } 5 "medium".toList
    "local".toList {} rfl

/-- Witness for claim1_not_pending_deleted at a concrete job and document. -/
theorem claim1_witness :
    resolvedDocumentId { msg_id := 4, document_id := some "d".toList } =
        some "d".toList ∧
    process_single_job { msg_id := 4, document_id := some "d".toList } 5
        "medium".toList "local".toList { docStatus := "completed".toList } =
      { result := { msg_id := 4, status := "deleted".toList,
                    reason := some "not pending".toList,
                    document_id := some "d".toList },
        effects := [.claimUpdate "d".toList false, .ackDelete 4] } :=
  ⟨rfl, claim1_not_pending_deleted { msg_id := 4, document_id := some "d".toList } 5
    "medium".toList "local".toList { docStatus := "completed".toList }
    "d".toList rfl (by decide)⟩

/-- Witness for claim2_failure_disposition at a concrete failing run with
read_ct below the bound. -/
theorem claim2_witness :
    (1 : Int) < 5 ∧
    process_single_job { msg_id := 5, read_ct := 1, document_id := some "d".toList }
        5 "medium".toList "local".toList { fetchDoc := .error "boom".toList } =
      { result := { msg_id := 5, status := "retry".toList,
                    error := some (buildErrorMsg "fetching document details".toList
                      "boom".toList),
                    read_ct := some 1, document_id := some "d".toList },
        effects := [.claimUpdate "d".toList true, .fetchDocument "d".toList,
          .updateStatus "d".toList "pending".toList
            (some ("Retry ".toList ++ intRepr 1 ++ "/".toList ++ intRepr 5 ++
              ": ".toList ++ buildErrorMsg "fetching document details".toList
                "boom".toList)) true] } :=
  ⟨by norm_num,
    ((claim2_failure_disposition
        { msg_id := 5, read_ct := 1, document_id := some "d".toList } 5
        "medium".toList "local".toList { fetchDoc := .error "boom".toList }
        "d".toList
        [.claimUpdate "d".toList true, .fetchDocument "d".toList]
        "fetching document details".toList "boom".toList rfl rfl).1
      (by norm_num)).1⟩

/-- Helper: every return path of process_single_job carries one of the four
result statuses. -/
theorem single_job_status_cases (job : Job) (max_retries : Int)
    (model_size provider : List Char) (env : Env) :
    (process_single_job job max_retries model_size provider env).result.status =
        "completed".toList ∨
    (process_single_job job max_retries model_size provider env).result.status =
        "retry".toList ∨
    (process_single_job job max_retries model_size provider env).result.status =
        "archived".toList ∨
    (process_single_job job max_retries model_size provider env).result.status =
        "deleted".toList := by
  cases hd : resolvedDocumentId job with
  | none => simp [process_single_job, hd]
  | some d =>
    cases hb : processBody job d model_size provider env with
    | mk effs out =>
      cases out with
      | earlyDeleted => simp [process_single_job, hd, hb]
      | completedRun s wc sc => simp [process_single_job, hd, hb]
      | exn st ba =>
        by_cases hge : job.read_ct ≥ max_retries
        · simp [process_single_job, hd, hb, hge]
        · simp [process_single_job, hd, hb, hge]

/-- Helper: four mutually distinct status values partition a result list by
its filter counts. -/
theorem count_partition_generic (A B C D : List Char) (hAB : A ≠ B) (hAC : A ≠ C)
    (hAD : A ≠ D) (hBC : B ≠ C) (hBD : B ≠ D) (hCD : C ≠ D) (l : List JobResult)
    (h : ∀ r ∈ l, r.status = A ∨ r.status = B ∨ r.status = C ∨ r.status = D) :
    (l.filter (fun r => r.status = A)).length +
      (l.filter (fun r => r.status = B)).length +
      (l.filter (fun r => r.status = C)).length +
      (l.filter (fun r => r.status = D)).length = l.length := by
  induction l with
  | nil => simp
  | cons a t ih =>
    have ht : ∀ r ∈ t, r.status = A ∨ r.status = B ∨ r.status = C ∨ r.status = D :=
      fun r hr => h r (List.mem_cons_of_mem _ hr)
    have iht := ih ht
    have ha := h a (List.mem_cons_self _ _)
    simp only [List.filter_cons, List.length_cons]
    rcases ha with h1 | h1 | h1 | h1
    · simp [h1, hAB, hAC, hAD]; omega
    · simp [h1, Ne.symm hAB, hBC, hBD]; omega
    · simp [h1, Ne.symm hAC, Ne.symm hBC, hCD]; omega
    · simp [h1, Ne.symm hAD, Ne.symm hBD, Ne.symm hCD]; omega

/-- Claim C10: every result of process_single_job has one of the four
statuses, hence in every batch summary the four counters partition the
batch: completed + retry + archived + deleted = total. -/
theorem claim10_status_partition :
    (∀ (job : Job) (max_retries : Int) (model_size provider : List Char) (env : Env),
      (process_single_job job max_retries model_size provider env).result.status =
          "completed".toList ∨
      (process_single_job job max_retries model_size provider env).result.status =
          "retry".toList ∨
      (process_single_job job max_retries model_size provider env).result.status =
          "archived".toList ∨
      (process_single_job job max_retries model_size provider env).result.status =
          "deleted".toList) ∧
    (∀ (jobs : List (Job × Env)) (max_retries : Int)
        (model_size provider : List Char),
      (process_job_batch jobs max_retries model_size provider).summary.completed +
        (process_job_batch jobs max_retries model_size provider).summary.retry +
        (process_job_batch jobs max_retries model_size provider).summary.archived +
        (process_job_batch jobs max_retries model_size provider).summary.deleted =
        (process_job_batch jobs max_retries model_size provider).summary.total) := by
  refine ⟨single_job_status_cases, fun jobs max_retries model_size provider => ?_⟩
  have hmem : ∀ r ∈ jobs.map (fun je =>
      (process_single_job je.1 max_retries model_size provider je.2).result),
      r.status = "completed".toList ∨ r.status = "retry".toList ∨
      r.status = "archived".toList ∨ r.status = "deleted".toList := by
    intro r hr
    obtain ⟨je, -, rfl⟩ := List.mem_map.mp hr
    exact single_job_status_cases je.1 max_retries model_size provider je.2
  have hcount := count_partition_generic "completed".toList "retry".toList
    "archived".toList "deleted".toList (by decide) (by decide) (by decide)
    (by decide) (by decide) (by decide) _ hmem
  simpa [process_job_batch] using hcount

/-- Claim C3: the dispatcher processes the batch sequentially in list order: one result
per message at the same position, summary total the number of jobs and each
counter the count of results with that status; a message whose guarded body
raises still yields a retry or archived result (so the loop, a total map,
continues past it). -/
theorem claim3_sequential_batch (jobs : List (Job × Env)) (max_retries : Int)
    (model_size provider : List Char) :
    (process_job_batch jobs max_retries model_size provider).results.length =
        jobs.length ∧
    (∀ i : Nat,
      (process_job_batch jobs max_retries model_size provider).results[i]? =
        (jobs[i]?).map (fun je =>
          (process_single_job je.1 max_retries model_size provider je.2).result)) ∧
    (process_job_batch jobs max_retries model_size provider).summary.total =
        jobs.length ∧
    (process_job_batch jobs max_retries model_size provider).summary.completed =
        ((process_job_batch jobs max_retries model_size provider).results.filter
          (fun r => r.status = "completed".toList)).length ∧
    (process_job_batch jobs max_retries model_size provider).summary.retry =
        ((process_job_batch jobs max_retries model_size provider).results.filter
          (fun r => r.status = "retry".toList)).length ∧
    (process_job_batch jobs max_retries model_size provider).summary.archived =
        ((process_job_batch jobs max_retries model_size provider).results.filter
          (fun r => r.status = "archived".toList)).length ∧
    (process_job_batch jobs max_retries model_size provider).summary.deleted =
        ((process_job_batch jobs max_retries model_size provider).results.filter
          (fun r => r.status = "deleted".toList)).length ∧
    (∀ je ∈ jobs, ∀ (docId : List Char) (effs : List Effect) (step base : List Char),
      resolvedDocumentId je.1 = some docId →
      processBody je.1 docId model_size provider je.2 = (effs, .exn step base) →
      ((process_single_job je.1 max_retries model_size provider je.2).result.status =
          "retry".toList ∨
        (process_single_job je.1 max_retries model_size provider je.2).result.status =
          "archived".toList)) := by
  refine ⟨by simp [process_job_batch], fun i => ?_, rfl, rfl, rfl, rfl, rfl, ?_⟩
  · simp [process_job_batch]
  · intro je hje docId effs step base hdoc hexn
    rcases lt_or_le je.1.read_ct max_retries with hlt | hge
    · left
      rw [single_job_exn_retry je.1 max_retries model_size provider je.2 docId effs
        step base hdoc hexn hlt]
    · right
      rw [single_job_exn_archive je.1 max_retries model_size provider je.2 docId effs
        step base hdoc hexn hge]

/-- Witness for claim3_sequential_batch on a concrete two-message batch whose
second message fails its pipeline. -/
theorem claim3_witness :
    (process_job_batch
        [({ msg_id := 1, document_id := some "a".toList },
          { docStatus := "completed".toList }),
         ({ msg_id := 2, read_ct := 1, document_id := some "b".toList },
          { fetchDoc := .error "boom".toList })] 5
        "medium".toList "local".toList).results.length = 2 ∧
    ((process_single_job { msg_id := 2, read_ct := 1, document_id := some "b".toList }
        5 "medium".toList "local".toList
        { fetchDoc := .error "boom".toList }).result.status = "retry".toList ∨
      (process_single_job { msg_id := 2, read_ct := 1, document_id := some "b".toList }
        5 "medium".toList "local".toList
        { fetchDoc := .error "boom".toList }).result.status = "archived".toList) := by
  have h := claim3_sequential_batch
    [({ msg_id := 1, document_id := some "a".toList },
      { docStatus := "completed".toList }),
     ({ msg_id := 2, read_ct := 1, document_id := some "b".toList },
      { fetchDoc := .error "boom".toList })] 5 "medium".toList "local".toList
  refine ⟨h.1, ?_⟩
  exact h.2.2.2.2.2.2.2
    ({ msg_id := 2, read_ct := 1, document_id := some "b".toList },
      { fetchDoc := .error "boom".toList }) (by simp) "b".toList
    [.claimUpdate "b".toList true, .fetchDocument "b".toList]
    "fetching document details".toList "boom".toList rfl rfl

/-- Helper: a list always starts with itself in front of any suffix. -/
theorem startsWithChars_append (p r : List Char) :
    startsWithChars p (p ++ r) = true := by
  induction p with
  | nil => rfl
  | cons c cs ih => simp [startsWithChars, ih]

/-- Claim C8: the failure message persisted by the except handler is
step-prefixed and length-bounded: buildErrorMsg never exceeds 500 characters, keeps its
step prefix whenever the step marker fits the truncation window (every step
marker of the pipeline does), and on a failing run it is both returned in
the JobResult error field and embedded in the processing_error text of the
recorded status write of either disposition. -/
theorem claim8_error_prefix_truncation :
    (∀ step base : List Char, (buildErrorMsg step base).length ≤ 500) ∧
    (∀ step base : List Char, step.length ≤ 471 →
      startsWithChars ("[Step: ".toList ++ step ++ "] ".toList)
        (buildErrorMsg step base) = true) ∧
    (∀ (job : Job) (max_retries : Int) (model_size provider : List Char) (env : Env)
        (docId : List Char) (effs : List Effect) (step base : List Char),
      resolvedDocumentId job = some docId →
      processBody job docId model_size provider env = (effs, .exn step base) →
      (process_single_job job max_retries model_size provider env).result.error =
          some (buildErrorMsg step base) ∧
      (job.read_ct < max_retries →
        Effect.updateStatus docId "pending".toList
            (some ("Retry ".toList ++ intRepr job.read_ct ++ "/".toList ++
              intRepr max_retries ++ ": ".toList ++ buildErrorMsg step base))
            env.statusWriteOk ∈
          (process_single_job job max_retries model_size provider env).effects) ∧
      (max_retries ≤ job.read_ct →
        Effect.updateStatus docId "error".toList
            (some ("Failed after ".toList ++ intRepr job.read_ct ++
              " attempts. Last error: ".toList ++ buildErrorMsg step base))
            env.statusWriteOk ∈
          (process_single_job job max_retries model_size provider env).effects)) := by
  refine ⟨fun step base => ?_, fun step base hstep => ?_, ?_⟩
  · unfold buildErrorMsg
    dsimp only
    split
    · simp only [List.length_append, List.length_take]
      have h15 : ("... (truncated)".toList).length = 15 := rfl
      omega
    · omega
  · unfold buildErrorMsg
    dsimp only
    split
    · rw [List.take_append_eq_append_take]
      have hlen : ("[Step: ".toList ++ step ++ "] ".toList).length ≤ 480 := by
        simp only [List.length_append]
        have h7 : ("[Step: ".toList).length = 7 := rfl
        have h2 : ("] ".toList).length = 2 := rfl
        omega
      rw [List.take_of_length_le hlen]
      have hsw := startsWithChars_append ("[Step: ".toList ++ step ++ "] ".toList)
        (List.take (480 - ("[Step: ".toList ++ step ++ "] ".toList).length) base ++
          "... (truncated)".toList)
      simpa [List.append_assoc] using hsw
    · exact startsWithChars_append _ _
  · intro job max_retries model_size provider env docId effs step base hdoc hexn
    rcases lt_or_le job.read_ct max_retries with hlt | hge
    · rw [single_job_exn_retry job max_retries model_size provider env docId effs
        step base hdoc hexn hlt]
      refine ⟨rfl, fun _ => ?_, fun hge => absurd hge (by omega)⟩
      simp
    · rw [single_job_exn_archive job max_retries model_size provider env docId effs
        step base hdoc hexn hge]
      refine ⟨rfl, fun hlt => absurd hlt (by omega), fun _ => ?_⟩
      simp

/-- Witness for claim8_error_prefix_truncation at a concrete step and a long
base message. -/
theorem claim8_witness :
    (buildErrorMsg "claiming document".toList
        (List.replicate 600 'x')).length ≤ 500 ∧
    ("claiming document".toList).length ≤ 471 ∧
    startsWithChars ("[Step: ".toList ++ "claiming document".toList ++ "] ".toList)
      (buildErrorMsg "claiming document".toList (List.replicate 600 'x')) = true ∧
    (process_single_job { msg_id := 6, read_ct := 9, document_id := some "d".toList }
        5 "medium".toList "local".toList
        { fetchDoc := .error "boom".toList }).result.error =
      some (buildErrorMsg "fetching document details".toList "boom".toList) := by
  refine ⟨claim8_error_prefix_truncation.1 _ _, by decide,
    claim8_error_prefix_truncation.2.1 _ _ (by decide), ?_⟩
  exact (claim8_error_prefix_truncation.2.2
    { msg_id := 6, read_ct := 9, document_id := some "d".toList } 5
    "medium".toList "local".toList { fetchDoc := .error "boom".toList }
    "d".toList [.claimUpdate "d".toList true, .fetchDocument "d".toList]
    "fetching document details".toList "boom".toList rfl rfl).1

/-- Claim C6: at most the configured gate size (MAX_CONCURRENT_TRANSCRIPTIONS)
of callers execute inside the transcription gate at any reachable instant (the permit count and the
number of callers inside always sum to the gate size); a caller holding a
permit can always give it back, whether or not the engine raised; and when
no permit is free, no transition admits a waiting caller, which therefore
stays waiting (it blocks, it cannot fail). -/
theorem claim6_transcription_gate :
    (∀ (maxConc n : Nat) (s : GateState), GateReachable maxConc n s →
      runningCount s + s.permits = maxConc ∧ runningCount s ≤ maxConc) ∧
    (∀ (s : GateState) (i : Nat) (raised : Bool),
      s.tasks[i]? = some TaskPhase.running →
      GateStep s ⟨s.permits + 1, s.tasks.set i TaskPhase.finished⟩) ∧
    (∀ (s s' : GateState), GateStep s s' → s.permits = 0 →
      ∀ i : Nat, s.tasks[i]? = some TaskPhase.waiting →
        s'.tasks[i]? = some TaskPhase.waiting) := by
  refine ⟨fun maxConc n s h => ?_, fun s i raised hi => GateStep.finish s i raised hi,
    fun s s' hstep hzero i hi => ?_⟩
  · have hsum : runningCount s + s.permits = maxConc := by
      induction h with
      | init => simp [initGate, runningCount, List.count_replicate]
      | @step t t' hr hstep ih =>
        cases hstep with
        | acquire j hj hp =>
          obtain ⟨hlen, hget⟩ := List.getElem?_eq_some.mp hj
          simp only [runningCount] at ih ⊢
          rw [List.count_set TaskPhase.running TaskPhase.running t.tasks j hlen]
          simp [hget]
          omega
        | finish j raised hj =>
          obtain ⟨hlen, hget⟩ := List.getElem?_eq_some.mp hj
          have hpos : 0 < List.count TaskPhase.running t.tasks :=
            List.count_pos_iff.mpr (hget ▸ List.getElem_mem hlen)
          simp only [runningCount] at ih ⊢
          rw [List.count_set TaskPhase.finished TaskPhase.running t.tasks j hlen]
          simp [hget]
          omega
    exact ⟨hsum, by omega⟩
  · cases hstep with
    | acquire j hj hp => omega
    | finish j raised hj =>
      by_cases hij : j = i
      · subst hij
        obtain ⟨hlen, hget⟩ := List.getElem?_eq_some.mp hj
        obtain ⟨hlen2, hget2⟩ := List.getElem?_eq_some.mp hi
        rw [hget] at hget2
        exact absurd hget2 (by simp)
      · simpa [List.getElem?_set_ne hij] using hi

/-- Witness for claim6_transcription_gate: the initial state with gate size 2
and three callers, one concrete release after an exception, and one blocked
waiting caller left waiting by a release step. -/
theorem claim6_witness :
    (runningCount (initGate 2 3) + (initGate 2 3).permits = 2 ∧
      runningCount (initGate 2 3) ≤ 2) ∧
    GateStep ⟨0, [TaskPhase.running]⟩ ⟨1, [TaskPhase.finished]⟩ ∧
    (GateState.mk 1 [TaskPhase.finished, TaskPhase.waiting]).tasks[1]? =
      some TaskPhase.waiting :=
  ⟨claim6_transcription_gate.1 2 3 (initGate 2 3) GateReachable.init,
   claim6_transcription_gate.2.1 ⟨0, [TaskPhase.running]⟩ 0 true rfl,
   claim6_transcription_gate.2.2 ⟨0, [TaskPhase.running, TaskPhase.waiting]⟩
     ⟨1, [TaskPhase.finished, TaskPhase.waiting]⟩
     (GateStep.finish ⟨0, [TaskPhase.running, TaskPhase.waiting]⟩ 0 true rfl)
     rfl 1 rfl⟩

/-- Claim C5: the track selection of _try_extract_platform_subtitles realises
exactly the preference order of the specification (first non-empty candidate among
manual-target, manual-English variants, then auto-target, auto-English
variants when enabled, else no subtitle result), and among the chosen
tracks the format loops prefer json3, else vtt or srt, else the first
listed track. -/
theorem claim5_subtitle_preference :
    (∀ (manual auto : List (List Char × List SubTrack)) (target : List Char)
        (includeAuto : Bool),
      selectSubtitleTracks manual auto target includeAuto =
        specSelectSubtitleTracks manual auto target includeAuto) ∧
    (∀ (manual auto : List (List Char × List SubTrack)) (target : List Char)
        (includeAuto : Bool),
      selectSubtitleTracks manual auto target includeAuto = none ↔
        ∀ c ∈ specSubtitleCandidates target includeAuto,
          getTracks (if c.1 then auto else manual) c.2 = []) ∧
    (∀ (tracks : List SubTrack) (t : SubTrack), chooseTrackFormat tracks = some t →
      t ∈ tracks ∧
      (t.ext = some "json3".toList ∨
        ((∀ u ∈ tracks, u.ext ≠ some "json3".toList) ∧
          (t.ext = some "vtt".toList ∨ t.ext = some "srt".toList)) ∨
        ((∀ u ∈ tracks, u.ext ≠ some "json3".toList ∧ u.ext ≠ some "vtt".toList ∧
            u.ext ≠ some "srt".toList) ∧ tracks.head? = some t))) ∧
    (∀ tracks : List SubTrack, chooseTrackFormat tracks = none ↔ tracks = []) := by
  have hsel : ∀ (manual auto : List (List Char × List SubTrack)) (target : List Char)
      (includeAuto : Bool),
      selectSubtitleTracks manual auto target includeAuto =
        specSelectSubtitleTracks manual auto target includeAuto := by
    intro manual auto target includeAuto
    by_cases h1 : getTracks manual target = []
    case neg =>
      simp only [selectSubtitleTracks, specSelectSubtitleTracks, specSubtitleCandidates,
        englishVariants, List.findSome?_cons, List.findSome?_nil, List.cons_append, List.nil_append,
        List.map_cons, List.map_nil, Bool.false_eq_true, Bool.true_eq_false,
        eq_self_iff_true, not_true, not_false_eq_true, ite_true, ite_false, ne_eq, h1]
    case pos =>
    by_cases h2 : getTracks manual "en".toList = []
    case neg =>
      simp only [selectSubtitleTracks, specSelectSubtitleTracks, specSubtitleCandidates,
        englishVariants, List.findSome?_cons, List.findSome?_nil, List.cons_append, List.nil_append,
        List.map_cons, List.map_nil, Bool.false_eq_true, Bool.true_eq_false,
        eq_self_iff_true, not_true, not_false_eq_true, ite_true, ite_false, ne_eq, h1, h2]
    case pos =>
    by_cases h3 : getTracks manual "en-US".toList = []
    case neg =>
      simp only [selectSubtitleTracks, specSelectSubtitleTracks, specSubtitleCandidates,
        englishVariants, List.findSome?_cons, List.findSome?_nil, List.cons_append, List.nil_append,
        List.map_cons, List.map_nil, Bool.false_eq_true, Bool.true_eq_false,
        eq_self_iff_true, not_true, not_false_eq_true, ite_true, ite_false, ne_eq, h1, h2, h3]
    case pos =>
    by_cases h4 : getTracks manual "en-GB".toList = []
    case neg =>
      simp only [selectSubtitleTracks, specSelectSubtitleTracks, specSubtitleCandidates,
        englishVariants, List.findSome?_cons, List.findSome?_nil, List.cons_append, List.nil_append,
        List.map_cons, List.map_nil, Bool.false_eq_true, Bool.true_eq_false,
        eq_self_iff_true, not_true, not_false_eq_true, ite_true, ite_false, ne_eq, h1, h2, h3, h4]
    case pos =>
    cases includeAuto with
    | false =>
      simp only [selectSubtitleTracks, specSelectSubtitleTracks, specSubtitleCandidates,
        englishVariants, List.findSome?_cons, List.findSome?_nil, List.cons_append, List.nil_append,
        List.map_cons, List.map_nil, Bool.false_eq_true, Bool.true_eq_false,
        eq_self_iff_true, not_true, not_false_eq_true, ite_true, ite_false, ne_eq, h1, h2, h3, h4]
    | true =>
      by_cases h5 : getTracks auto target = []
      case neg =>
        simp only [selectSubtitleTracks, specSelectSubtitleTracks, specSubtitleCandidates,
          englishVariants, List.findSome?_cons, List.findSome?_nil, List.cons_append, List.nil_append,
          List.map_cons, List.map_nil, Bool.false_eq_true, Bool.true_eq_false,
          eq_self_iff_true, not_true, not_false_eq_true, ite_true, ite_false, ne_eq, h1, h2, h3, h4, h5]
      case pos =>
      by_cases h6 : getTracks auto "en".toList = []
      case neg =>
        simp only [selectSubtitleTracks, specSelectSubtitleTracks, specSubtitleCandidates,
          englishVariants, List.findSome?_cons, List.findSome?_nil, List.cons_append, List.nil_append,
          List.map_cons, List.map_nil, Bool.false_eq_true, Bool.true_eq_false,
          eq_self_iff_true, not_true, not_false_eq_true, ite_true, ite_false, ne_eq, h1, h2, h3, h4, h5, h6]
      case pos =>
      by_cases h7 : getTracks auto "en-US".toList = []
      case neg =>
        simp only [selectSubtitleTracks, specSelectSubtitleTracks, specSubtitleCandidates,
          englishVariants, List.findSome?_cons, List.findSome?_nil, List.cons_append, List.nil_append,
          List.map_cons, List.map_nil, Bool.false_eq_true, Bool.true_eq_false,
          eq_self_iff_true, not_true, not_false_eq_true, ite_true, ite_false, ne_eq, h1, h2, h3, h4, h5, h6, h7]
      case pos =>
      by_cases h8 : getTracks auto "en-GB".toList = []
      all_goals
        simp only [selectSubtitleTracks, specSelectSubtitleTracks, specSubtitleCandidates,
          englishVariants, List.findSome?_cons, List.findSome?_nil, List.cons_append, List.nil_append,
          List.map_cons, List.map_nil, Bool.false_eq_true, Bool.true_eq_false,
          eq_self_iff_true, not_true, not_false_eq_true, ite_true, ite_false, ne_eq, h1, h2, h3, h4, h5, h6, h7, h8]
  refine ⟨hsel, fun manual auto target includeAuto => ?_, fun tracks t hct => ?_,
    fun tracks => ?_⟩
  · rw [hsel]
    unfold specSelectSubtitleTracks
    rw [List.findSome?_eq_none]
    constructor
    · intro h c hc
      have := h c hc
      by_contra hne
      simp [hne] at this
    · intro h c hc
      simp [h c hc]
  · unfold chooseTrackFormat at hct
    cases hj : tracks.find? (fun t => t.ext == some "json3".toList) with
    | some tj =>
      rw [hj] at hct
      cases hct
      refine ⟨List.mem_of_find?_eq_some hj, Or.inl ?_⟩
      have := List.find?_some hj
      simpa using this
    | none =>
      rw [hj] at hct
      have hnoj : ∀ u ∈ tracks, u.ext ≠ some "json3".toList := by
        intro u hu
        have := List.find?_eq_none.mp hj u hu
        simpa using this
      cases hv : tracks.find? (fun t =>
          t.ext == some "vtt".toList || t.ext == some "srt".toList) with
      | some tv =>
        rw [hv] at hct
        cases hct
        refine ⟨List.mem_of_find?_eq_some hv, Or.inr (Or.inl ⟨hnoj, ?_⟩)⟩
        have := List.find?_some hv
        simpa using this
      | none =>
        rw [hv] at hct
        have hnov : ∀ u ∈ tracks, u.ext ≠ some "vtt".toList ∧
            u.ext ≠ some "srt".toList := by
          intro u hu
          have := List.find?_eq_none.mp hv u hu
          simpa [not_or] using this
        refine ⟨List.mem_of_mem_head? hct, Or.inr (Or.inr ⟨?_, hct⟩)⟩
        exact fun u hu => ⟨hnoj u hu, (hnov u hu).1, (hnov u hu).2⟩
  · constructor
    · intro h
      unfold chooseTrackFormat at h
      cases hj : tracks.find? (fun t => t.ext == some "json3".toList) with
      | some tj => rw [hj] at h; exact absurd h (by simp)
      | none =>
        rw [hj] at h
        cases hv : tracks.find? (fun t =>
            t.ext == some "vtt".toList || t.ext == some "srt".toList) with
        | some tv => rw [hv] at h; exact absurd h (by simp)
        | none =>
          rw [hv] at h
          exact List.head?_eq_none_iff.mp h
    · intro h
      subst h
      rfl

/-- Witness for claim5_subtitle_preference at concrete caption maps and a
concrete track list. -/
theorem claim5_witness :
    selectSubtitleTracks [("es".toList, [{ ext := some "vtt".toList }])] []
        "es".toList true =
      specSelectSubtitleTracks [("es".toList, [{ ext := some "vtt".toList }])] []
        "es".toList true ∧
    ({ ext := some "json3".toList, url := none } : SubTrack) ∈
      [({ ext := some "json3".toList, url := none } : SubTrack)] ∧
    (chooseTrackFormat [] = none ↔ ([] : List SubTrack) = []) :=
  ⟨claim5_subtitle_preference.1 _ _ _ _,
   (claim5_subtitle_preference.2.2.1
     [({ ext := some "json3".toList, url := none } : SubTrack)]
     { ext := some "json3".toList, url := none } rfl).1,
   claim5_subtitle_preference.2.2.2 []⟩

/-- The property claimed for the parser output: the k-th segment carries
segment_id k, counting from one. -/
def sequentialFromOne (segs : List Segment) : Prop :=
  segs.map Segment.segment_id = List.range' 1 segs.length

/-- Helper: a strictly increasing chain can be re-anchored below. -/
theorem chain_lt_anchor_le {a b : Nat} {l : List Nat} (hab : a ≤ b)
    (h : List.Chain (· < ·) b l) : List.Chain (· < ·) a l := by
  cases l with
  | nil => exact List.Chain.nil
  | cons c t =>
    rw [List.chain_cons] at h ⊢
    exact ⟨lt_of_le_of_lt hab h.1, h.2⟩

/-- Helper: the vtt branch numbers its output consecutively above the counter
it starts from (the counter advances only when a segment is emitted). -/
theorem parseVttLines_ids (lines : List (List Char)) (segId : Nat) :
    (parseVttLines segId lines).map Segment.segment_id =
      List.range' (segId + 1) (parseVttLines segId lines).length := by
  have H : ∀ (n : Nat) (lines : List (List Char)), lines.length ≤ n → ∀ segId : Nat,
      (parseVttLines segId lines).map Segment.segment_id =
        List.range' (segId + 1) (parseVttLines segId lines).length := by
    intro n
    induction n with
    | zero =>
      intro lines hle segId
      have hnil : lines = [] := List.length_eq_zero.mp (Nat.le_zero.mp hle)
      subst hnil
      simp [parseVttLines]
    | succ n ih =>
      intro lines hle segId
      cases lines with
      | nil => simp [parseVttLines]
      | cons line rest =>
        have hrest : rest.length ≤ n := by
          simp only [List.length_cons] at hle
          omega
        rw [parseVttLines]
        by_cases harr : containsSub arrowChars line = true
        · rw [if_pos harr]
          cases hm : matchCueTimes '.' line with
          | none =>
            simp only [hm]
            exact ih rest hrest segId
          | some tt =>
            obtain ⟨t1, t2⟩ := tt
            simp only [hm]
            have hdrop : (rest.drop (((rest.map pyStrip).takeWhile
                (fun s => !s.isEmpty && !containsSub arrowChars s)).length)).length ≤ n := by
              simp only [List.length_drop]
              omega
            by_cases hcl : pyStrip (stripTags (joinSpace ((rest.map pyStrip).takeWhile
                (fun s => !s.isEmpty && !containsSub arrowChars s)))) = []
            · rw [if_neg (by simp [hcl])]
              exact ih _ hdrop segId
            · rw [if_pos hcl]
              simp only [List.map_cons, List.length_cons]
              rw [List.range'_succ]
              exact congrArg (List.cons (segId + 1)) (ih _ hdrop (segId + 1))
        · rw [if_neg harr]
          exact ih rest hrest segId
  exact H lines.length lines le_rfl segId

/-- Helper: the srt branch produces strictly increasing ids above the counter
it starts from; ids can skip values because the counter also advances on
cues whose cleaned text is empty. -/
theorem parseSrtBlocks_chain (segId : Nat) (blocks : List (List Char)) :
    List.Chain (· < ·) segId
      ((parseSrtBlocks segId blocks).map Segment.segment_id) := by
  induction blocks generalizing segId with
  | nil => simp [parseSrtBlocks]
  | cons b rest ih =>
    simp only [parseSrtBlocks]
    split
    · split
      · split
        · simp only [List.map_cons, List.chain_cons]
          exact ⟨by omega, ih (segId + 1)⟩
        · exact chain_lt_anchor_le (by omega) (ih (segId + 1))
      · exact ih segId
    · exact ih segId

/-- Helper: the json3 branch produces strictly increasing ids above the
counter it starts from; ids can skip values because the counter also
advances on events whose collected text is empty. -/
theorem parseJson3Events_chain (segId : Nat) (events : List J3Event) :
    List.Chain (· < ·) segId
      ((parseJson3Events segId events).map Segment.segment_id) := by
  induction events generalizing segId with
  | nil => simp [parseJson3Events]
  | cons ev rest ih =>
    simp only [parseJson3Events]
    split
    · exact ih segId
    · split
      · exact ih segId
      · split
        · exact ih segId
        · split
          · simp only [List.map_cons, List.chain_cons]
            exact ⟨by omega, ih (segId + 1)⟩
          · exact chain_lt_anchor_le (by omega) (ih (segId + 1))

/-- Claim C7, counterexample: the claim as frozen is false; an srt cue whose
text is empty after markup stripping advances the counter without emitting a segment, so the first
returned segment of this concrete input carries segment_id 2, not 1. -/
theorem claim7_counterexample :
    ¬ sequentialFromOne (parse_subtitles_to_segments
      ("1\n00:00:00,000 --> 00:00:01,000\n<i></i>\n\n2\n00:00:01,000 --> 00:00:02,000\nhello").toList
      "srt".toList) := by
  unfold sequentialFromOne
  decide

/-- Claim C7, amended: the vtt branch numbers segments exactly 1, 2, ... in
order; the srt and json3 branches produce strictly increasing
segment ids that start at 1 or above but may skip values at cues whose
cleaned text is empty. -/
theorem claim7_segment_numbering_amended :
    (∀ content : List Char,
      sequentialFromOne (parse_subtitles_to_segments content "vtt".toList)) ∧
    (∀ content : List Char,
      List.Chain (· < ·) 0
        ((parse_subtitles_to_segments content "srt".toList).map
          Segment.segment_id)) ∧
    (∀ events : List J3Event,
      List.Chain (· < ·) 0
        ((parseJson3Events 0 events).map Segment.segment_id)) := by
  refine ⟨fun content => ?_, fun content => ?_, fun events => ?_⟩
  · unfold sequentialFromOne parse_subtitles_to_segments
    rw [if_pos rfl]
    exact parseVttLines_ids (splitOnChar '\n' content) 0
  · unfold parse_subtitles_to_segments
    rw [if_neg (by decide), if_pos rfl]
    exact parseSrtBlocks_chain 0 (splitOnPair '\n' '\n' (pyStrip content))
  · exact parseJson3Events_chain 0 events

/-- Helper: a digit character is not equal to any non-digit character. -/
theorem digit_ne_char {c d : Char} (h : isDigitChar c = true)
    (hd : isDigitChar d = false) : c ≠ d := by
  intro hc
  subst hc
  rw [h] at hd
  exact Bool.noConfusion hd

/-- Helper: digit characters are not whitespace. -/
theorem digit_not_space {c : Char} (h : isDigitChar c = true) :
    pyIsSpace c = false := by
  have h1 : c ≠ ' ' := digit_ne_char h (by decide)
  have h2 : c ≠ '\t' := digit_ne_char h (by decide)
  have h3 : c ≠ '\n' := digit_ne_char h (by decide)
  have h4 : c ≠ '\r' := digit_ne_char h (by decide)
  have h5 : c ≠ Char.ofNat 11 := digit_ne_char h (by decide)
  have h6 : c ≠ Char.ofNat 12 := digit_ne_char h (by decide)
  simp [pyIsSpace, h1, h2, h3, h4, h5, h6]

/-- Helper: value and digit-ness of the digit character of a value below ten. -/
theorem digitVal_digitChar {n : Nat} (h : n < 10) :
    digitVal (digitChar n) = n := by
  interval_cases n <;> decide

/-- Helper: digitChar yields digit characters. -/
theorem isDigitChar_digitChar {n : Nat} (h : n < 10) :
    isDigitChar (digitChar n) = true := by
  interval_cases n <;> decide

/-- Helper: decimal printing is never empty. -/
theorem natDigits_ne_nil (n : Nat) : natDigits n ≠ [] := by
  rw [natDigits]
  split <;> simp

/-- Helper: decimal printing produces only digit characters. -/
theorem natDigits_all (n : Nat) : (natDigits n).all isDigitChar = true := by
  induction n using Nat.strong_induction_on with
  | _ n ih =>
    rw [natDigits]
    split
    · rename_i h
      simp [isDigitChar_digitChar h]
    · rename_i h
      push_neg at h
      have hih := ih (n / 10) (Nat.div_lt_self (by omega) (by omega))
      simp [List.all_append, hih, isDigitChar_digitChar (Nat.mod_lt n (by omega))]

/-- Helper: folding the decimal accumulator over the printed digits of n
appends n to the accumulator in base ten. -/
theorem natDigits_foldl (n : Nat) : ∀ a : Nat,
    (natDigits n).foldl (fun a c => a * 10 + digitVal c) a =
      a * 10 ^ (natDigits n).length + n := by
  induction n using Nat.strong_induction_on with
  | _ n ih =>
    intro a
    rw [natDigits]
    split
    · rename_i h
      simp [digitVal_digitChar h]
    · rename_i h
      push_neg at h
      have hih := ih (n / 10) (Nat.div_lt_self (by omega) (by omega))
      rw [List.foldl_append, hih a]
      simp only [List.foldl_cons, List.foldl_nil, List.length_append,
        List.length_cons, List.length_nil]
      rw [digitVal_digitChar (Nat.mod_lt _ (by omega))]
      have hmod : 10 * (n / 10) + n % 10 = n := Nat.div_add_mod n 10
      have hpow : 10 ^ ((natDigits (n / 10)).length + (0 + 1)) =
          10 ^ (natDigits (n / 10)).length * 10 := by
        rw [Nat.zero_add, pow_succ]
      rw [hpow]
      set t := a * 10 ^ (natDigits (n / 10)).length with ht
      have : a * (10 ^ (natDigits (n / 10)).length * 10) = t * 10 := by
        rw [ht]; ring
      rw [this]
      omega

/-- Helper: printing then reading a natural number is the identity. -/
theorem digitsVal_natDigits (n : Nat) : digitsVal (natDigits n) = n := by
  have := natDigits_foldl n 0
  simpa [digitsVal] using this

/-- Helper: the printed digits of a number below 10 ^ k fit in k positions. -/
theorem natDigits_length_le : ∀ (k n : Nat), n < 10 ^ k → 1 ≤ k →
    (natDigits n).length ≤ k := by
  intro k
  induction k with
  | zero => intro n _ hk; omega
  | succ k ih =>
    intro n hn _
    rw [natDigits]
    split
    · simp
    · rename_i h
      push_neg at h
      have hdiv : n / 10 < 10 ^ k := by
        rw [Nat.div_lt_iff_lt_mul (by omega)]
        calc n < 10 ^ (k + 1) := hn
          _ = 10 ^ k * 10 := by rw [pow_succ]
      have hk1 : 1 ≤ k := by
        by_contra hk0
        push_neg at hk0
        interval_cases k
        simp at hdiv
        omega
      have := ih (n / 10) hdiv hk1
      simp only [List.length_append, List.length_cons, List.length_nil]
      omega

/-- Helper: leading zeros do not change the decimal value. -/
theorem digitsVal_padZeros (w : Nat) (l : List Char) :
    digitsVal (padZeros w l) = digitsVal l := by
  unfold padZeros digitsVal
  rw [List.foldl_append]
  have hz : ∀ k : Nat, (List.replicate k '0').foldl
      (fun a c => a * 10 + digitVal c) 0 = 0 := by
    intro k
    induction k with
    | zero => rfl
    | succ k ihk => simpa [List.replicate_succ, digitVal]
  rw [hz]

/-- Helper: padding with zeros keeps every character a digit. -/
theorem all_padZeros (w : Nat) (l : List Char) (h : l.all isDigitChar = true) :
    (padZeros w l).all isDigitChar = true := by
  unfold padZeros
  have hz : ∀ k : Nat, (List.replicate k '0').all isDigitChar = true := by
    intro k
    induction k with
    | zero => rfl
    | succ k ihk => rw [List.replicate_succ, List.all_cons, ihk]; rfl
  rw [List.all_append, h, hz (w - l.length)]
  rfl

/-- Helper: padding to width w yields length w when the input fits. -/
theorem length_padZeros (w : Nat) (l : List Char) (h : l.length ≤ w) :
    (padZeros w l).length = w := by
  simp [padZeros]
  omega

/-- Helper: a padded numeral is never empty (the payload is non-empty). -/
theorem padZeros_ne_nil (w : Nat) {l : List Char} (h : l ≠ []) :
    padZeros w l ≠ [] := by
  unfold padZeros
  simp [h]

/-- Helper: dropWhile is the identity when no element satisfies the predicate. -/
theorem dropWhile_eq_self_of_all {p : Char → Bool} {l : List Char}
    (h : ∀ c ∈ l, p c = false) : l.dropWhile p = l := by
  cases l with
  | nil => rfl
  | cons c t =>
    rw [List.dropWhile_cons, h c (by simp)]
    simp

/-- Helper: stripping a whitespace-free string is the identity. -/
theorem pyStrip_eq_self {l : List Char} (h : ∀ c ∈ l, pyIsSpace c = false) :
    pyStrip l = l := by
  unfold pyStrip
  rw [dropWhile_eq_self_of_all h,
    dropWhile_eq_self_of_all (fun c hc => h c (List.mem_reverse.mp hc)),
    List.reverse_reverse]

/-- Helper: splitting a separator-free string yields one piece. -/
theorem splitOnChar_sepFree {sep : Char} {l : List Char}
    (h : ∀ c ∈ l, c ≠ sep) : splitOnChar sep l = [l] := by
  induction l with
  | nil => rfl
  | cons c t ih =>
    rw [splitOnChar, if_neg (h c (by simp)),
      ih (fun x hx => h x (by simp [hx]))]

/-- Helper: splitting peels off a separator-free prefix. -/
theorem splitOnChar_append {sep : Char} {A B : List Char}
    (h : ∀ c ∈ A, c ≠ sep) :
    splitOnChar sep (A ++ sep :: B) = A :: splitOnChar sep B := by
  induction A with
  | nil => simp [splitOnChar]
  | cons a A' ih =>
    rw [List.cons_append, splitOnChar, if_neg (h a (by simp)),
      ih (fun x hx => h x (by simp [hx]))]

/-- Helper: Python int parsing of a plain digit string. -/
theorem pyParseInt_digits {l : List Char} (hne : l ≠ [])
    (hd : l.all isDigitChar = true) :
    pyParseInt l = some ((digitsVal l : Int)) := by
  unfold pyParseInt
  rw [pyStrip_eq_self (fun c hc => digit_not_space (List.all_eq_true.mp hd c hc))]
  rw [if_pos ⟨hne, hd⟩]

/-- Helper: Python float parsing of a digits-dot-digits string. -/
theorem pyParseFloat_digits_dot {ip fp : List Char} (hip : ip ≠ [])
    (hdi : ip.all isDigitChar = true) (hdf : fp.all isDigitChar = true) :
    pyParseFloat (ip ++ '.' :: fp) =
      some ((digitsVal ip : Rat) + (digitsVal fp : Rat) / 10 ^ fp.length) := by
  have hall : ∀ c ∈ ip ++ '.' :: fp, pyIsSpace c = false := by
    intro c hc
    rcases List.mem_append.mp hc with hc | hc
    · exact digit_not_space (List.all_eq_true.mp hdi c hc)
    · rcases List.mem_cons.mp hc with rfl | hc
      · decide
      · exact digit_not_space (List.all_eq_true.mp hdf c hc)
  obtain ⟨c0, ip', rfl⟩ : ∃ c0 ip', ip = c0 :: ip' := by
    cases ip with
    | nil => exact absurd rfl hip
    | cons c0 ip' => exact ⟨c0, ip', rfl⟩
  have hc0 : isDigitChar c0 = true := List.all_eq_true.mp hdi c0 (by simp)
  have hp : c0 ≠ '+' := digit_ne_char hc0 (by decide)
  have hm : c0 ≠ '-' := digit_ne_char hc0 (by decide)
  unfold pyParseFloat
  rw [pyStrip_eq_self hall]
  dsimp only
  rw [if_neg (by simp [hp, hm]), if_neg (by simp [hm])]
  rw [splitOnChar_append (fun c hc =>
    digit_ne_char (List.all_eq_true.mp hdi c hc) (by decide))]
  rw [splitOnChar_sepFree (fun c hc =>
    digit_ne_char (List.all_eq_true.mp hdf c hc) (by decide))]
  dsimp only
  rw [if_pos ⟨Or.inl hip, hdi, hdf⟩]
  rw [one_mul]

/-- Helper: the Python float modulus lies in [0, m) for a positive modulus. -/
theorem pymod_bounds {x m : Rat} (hm : 0 < m) : 0 ≤ pymod x m ∧ pymod x m < m := by
  unfold pymod
  have h1 : (⌊x / m⌋ : Rat) ≤ x / m := Int.floor_le _
  have h2 : x / m < ⌊x / m⌋ + 1 := Int.lt_floor_add_one _
  have hx : m * (x / m) = x := by field_simp
  constructor
  · nlinarith [mul_le_mul_of_nonneg_left h1 hm.le]
  · nlinarith [mul_lt_mul_of_pos_left h2 hm]

/-- Helper: Python str(i) of a non-negative integer is its decimal digits. -/
theorem intRepr_nonneg {i : Int} (h : 0 ≤ i) : intRepr i = natDigits i.toNat := by
  unfold intRepr
  rw [if_neg (by omega)]

/-- Helper: the comma-to-dot substitution fixes digit strings. -/
theorem map_comma_digits {l : List Char} (h : l.all isDigitChar = true) :
    l.map (fun c => if c = ',' then '.' else c) = l := by
  induction l with
  | nil => rfl
  | cons c t ih =>
    have hc : isDigitChar c = true := List.all_eq_true.mp h c (by simp)
    have ht : t.all isDigitChar = true :=
      List.all_eq_true.mpr (fun x hx => List.all_eq_true.mp h x (by simp [hx]))
    have hcom : c ≠ ',' := digit_ne_char hc (by decide)
    simp only [List.map_cons, ih ht]
    rw [if_neg hcom]

/-- Claim C9: formatting a non-negative number of seconds to the SRT wire
shape and parsing it back recovers the value to within one millisecond: the only loss
is the floor to whole milliseconds, so the round-trip error lies in
(-1/1000, 0]. -/
theorem claim9_timestamp_roundtrip (s : Rat) (hs : 0 ≤ s) :
    ∃ q : Rat,
      convert_srt_timestamp_to_seconds (format_seconds_to_srt s) = some q ∧
      |q - s| < 1 / 1000 := by
  have hn0 : (0 : Int) ≤ ⌊s⌋ := Int.floor_nonneg.mpr hs
  have hH0 : (0 : Int) ≤ ⌊s / 3600⌋ := Int.floor_nonneg.mpr (by positivity)
  have hb3600 := pymod_bounds (x := s) (m := 3600) (by norm_num)
  have hb60 := pymod_bounds (x := s) (m := 60) (by norm_num)
  have hb1 := pymod_bounds (x := s) (m := 1) (by norm_num)
  have hmin_eq : ⌊pymod s 3600 / 60⌋ = ⌊s / 60⌋ - 60 * ⌊s / 3600⌋ := by
    have h1 : pymod s 3600 / 60 = s / 60 - ((60 * ⌊s / 3600⌋ : Int) : Rat) := by
      unfold pymod
      push_cast
      ring
    rw [h1, Int.floor_sub_int]
  have hsec_eq : ⌊pymod s 60⌋ = ⌊s⌋ - 60 * ⌊s / 60⌋ := by
    have h1 : pymod s 60 = s - ((60 * ⌊s / 60⌋ : Int) : Rat) := by
      unfold pymod
      push_cast
      ring
    rw [h1, Int.floor_sub_int]
  have hms1 : pymod s 1 = s - ((⌊s⌋ : Int) : Rat) := by
    unfold pymod
    rw [div_one]
    ring
  have hminb : 0 ≤ ⌊pymod s 3600 / 60⌋ ∧ ⌊pymod s 3600 / 60⌋ < 60 := by
    refine ⟨Int.floor_nonneg.mpr (div_nonneg hb3600.1 (by norm_num)), ?_⟩
    rw [Int.floor_lt]
    push_cast
    rw [div_lt_iff (by norm_num : (0:Rat) < 60)]
    linarith [hb3600.2]
  have hsecb : 0 ≤ ⌊pymod s 60⌋ ∧ ⌊pymod s 60⌋ < 60 := by
    refine ⟨Int.floor_nonneg.mpr hb60.1, ?_⟩
    rw [Int.floor_lt]
    push_cast
    exact hb60.2
  have hmsb : 0 ≤ ⌊pymod s 1 * 1000⌋ ∧ ⌊pymod s 1 * 1000⌋ < 1000 := by
    refine ⟨Int.floor_nonneg.mpr (mul_nonneg hb1.1 (by norm_num)), ?_⟩
    rw [Int.floor_lt]
    push_cast
    nlinarith [hb1.2]
  have hfmt : format_seconds_to_srt s =
      padZeros 2 (natDigits (⌊s / 3600⌋).toNat) ++
        ':' :: padZeros 2 (natDigits (⌊pymod s 3600 / 60⌋).toNat) ++
        ':' :: padZeros 2 (natDigits (⌊pymod s 60⌋).toNat) ++
        ',' :: padZeros 3 (natDigits (⌊pymod s 1 * 1000⌋).toNat) := by
    unfold format_seconds_to_srt
    dsimp only
    rw [intRepr_nonneg hH0, intRepr_nonneg hminb.1, intRepr_nonneg hsecb.1,
      intRepr_nonneg hmsb.1]
  have dA := all_padZeros 2 _ (natDigits_all (⌊s / 3600⌋).toNat)
  have dB := all_padZeros 2 _ (natDigits_all (⌊pymod s 3600 / 60⌋).toNat)
  have dC := all_padZeros 2 _ (natDigits_all (⌊pymod s 60⌋).toNat)
  have dD := all_padZeros 3 _ (natDigits_all (⌊pymod s 1 * 1000⌋).toNat)
  have neA : padZeros 2 (natDigits (⌊s / 3600⌋).toNat) ≠ [] :=
    padZeros_ne_nil 2 (natDigits_ne_nil _)
  have neB : padZeros 2 (natDigits (⌊pymod s 3600 / 60⌋).toNat) ≠ [] :=
    padZeros_ne_nil 2 (natDigits_ne_nil _)
  have neC : padZeros 2 (natDigits (⌊pymod s 60⌋).toNat) ≠ [] :=
    padZeros_ne_nil 2 (natDigits_ne_nil _)
  have hlenD : (padZeros 3 (natDigits (⌊pymod s 1 * 1000⌋).toNat)).length = 3 := by
    refine length_padZeros 3 _ (natDigits_length_le 3 _ ?_ (by norm_num))
    have := hmsb.1
    have := hmsb.2
    omega
  have cfA : ∀ c ∈ padZeros 2 (natDigits (⌊s / 3600⌋).toNat), c ≠ ':' :=
    fun c hc => digit_ne_char (List.all_eq_true.mp dA c hc) (by decide)
  have cfB : ∀ c ∈ padZeros 2 (natDigits (⌊pymod s 3600 / 60⌋).toNat), c ≠ ':' :=
    fun c hc => digit_ne_char (List.all_eq_true.mp dB c hc) (by decide)
  have cfCD : ∀ c ∈ padZeros 2 (natDigits (⌊pymod s 60⌋).toNat) ++
      '.' :: padZeros 3 (natDigits (⌊pymod s 1 * 1000⌋).toNat), c ≠ ':' := by
    intro c hc
    rcases List.mem_append.mp hc with hc | hc
    · exact digit_ne_char (List.all_eq_true.mp dC c hc) (by decide)
    · rcases List.mem_cons.mp hc with rfl | hc
      · decide
      · exact digit_ne_char (List.all_eq_true.mp dD c hc) (by decide)
  have hconv : convert_srt_timestamp_to_seconds (format_seconds_to_srt s) =
      some (((digitsVal (padZeros 2 (natDigits (⌊s / 3600⌋).toNat)) : Int) : Rat)
          * 3600 +
        ((digitsVal (padZeros 2 (natDigits (⌊pymod s 3600 / 60⌋).toNat)) : Int) : Rat)
          * 60 +
        ((digitsVal (padZeros 2 (natDigits (⌊pymod s 60⌋).toNat)) : Rat) +
          (digitsVal (padZeros 3 (natDigits (⌊pymod s 1 * 1000⌋).toNat)) : Rat) /
            10 ^ (padZeros 3 (natDigits (⌊pymod s 1 * 1000⌋).toNat)).length)) := by
    rw [hfmt]
    unfold convert_srt_timestamp_to_seconds
    dsimp only
    rw [List.map_append, List.map_cons, List.map_append, List.map_cons,
      List.map_append, List.map_cons]
    rw [map_comma_digits dA, map_comma_digits dB, map_comma_digits dC,
      map_comma_digits dD]
    rw [show ((if (':' : Char) = ',' then '.' else ':') : Char) = ':' from rfl]
    rw [show ((if (',' : Char) = ',' then '.' else ',') : Char) = '.' from rfl]
    simp only [List.cons_append, List.append_assoc]
    rw [splitOnChar_append cfA, splitOnChar_append cfB, splitOnChar_sepFree cfCD]
    dsimp only
    rw [pyParseInt_digits neA dA, pyParseInt_digits neB dB,
      pyParseFloat_digits_dot neC dC dD]
  refine ⟨_, hconv, ?_⟩
  rw [digitsVal_padZeros, digitsVal_natDigits, digitsVal_padZeros,
    digitsVal_natDigits, digitsVal_padZeros, digitsVal_natDigits,
    digitsVal_padZeros, digitsVal_natDigits, hlenD]
  have e1 : ((⌊s / 3600⌋).toNat : Int) = ⌊s / 3600⌋ := Int.toNat_of_nonneg hH0
  have e2 : ((⌊pymod s 3600 / 60⌋).toNat : Int) = ⌊pymod s 3600 / 60⌋ :=
    Int.toNat_of_nonneg hminb.1
  have e3 : ((⌊pymod s 60⌋).toNat : Int) = ⌊pymod s 60⌋ :=
    Int.toNat_of_nonneg hsecb.1
  have e4 : ((⌊pymod s 1 * 1000⌋).toNat : Int) = ⌊pymod s 1 * 1000⌋ :=
    Int.toNat_of_nonneg hmsb.1
  have hMSle : ((⌊pymod s 1 * 1000⌋ : Int) : Rat) ≤ pymod s 1 * 1000 :=
    Int.floor_le _
  have hMSgt : pymod s 1 * 1000 - 1 < ((⌊pymod s 1 * 1000⌋ : Int) : Rat) :=
    Int.sub_one_lt_floor _
  have q1 : (((⌊s / 3600⌋).toNat : Nat) : Rat) = ((⌊s / 3600⌋ : Int) : Rat) := by
    exact_mod_cast e1
  have q2 : (((⌊pymod s 3600 / 60⌋).toNat : Nat) : Rat) =
      ((⌊pymod s 3600 / 60⌋ : Int) : Rat) := by exact_mod_cast e2
  have q3 : (((⌊pymod s 60⌋).toNat : Nat) : Rat) =
      ((⌊pymod s 60⌋ : Int) : Rat) := by exact_mod_cast e3
  have q4 : (((⌊pymod s 1 * 1000⌋).toNat : Nat) : Rat) =
      ((⌊pymod s 1 * 1000⌋ : Int) : Rat) := by exact_mod_cast e4
  rw [abs_lt]
  push_cast
  rw [q1, q2, q3, q4, hmin_eq, hsec_eq]
  push_cast
  norm_num
  constructor <;> linarith [hMSle, hMSgt, hms1]

/-- Witness for claim9_timestamp_roundtrip at 83.456 seconds. -/
theorem claim9_witness :
    (0 : Rat) ≤ 83456 / 1000 ∧
    ∃ q : Rat,
      convert_srt_timestamp_to_seconds (format_seconds_to_srt (83456 / 1000)) =
        some q ∧ |q - 83456 / 1000| < 1 / 1000 :=
  ⟨by norm_num, claim9_timestamp_roundtrip (83456 / 1000) (by norm_num)⟩
